import Mathlib

/-!
# Verification of the PAF side-channel leakage core

This file gives a shallow embedding of the leakage-simulation engine and the
statistical distinguishers of PAF (Physical Attack Framework), and proves the
testable properties of its specification against that embedding.

The library implementation sources are not part of the source snapshot (only
the unit tests `src/unit-tests/Power.cpp`, the `Dumper.h` header and two tool
drivers are), so the components below are modelled from the specification and
calibrated so that they reproduce, bit for bit, the golden values of the unit
tests that are part of the snapshot.  Fidelity lemmas evaluating the model on
the unit tests' inputs appear next to the definitions.

All power values are represented with exact rational arithmetic (`ℚ`); the
doubles manipulated by the tests (e.g. `65.6`, `8.4`) are all exactly
representable and all golden comparisons in the tests are exact equalities.
Machine `size_t` counters are represented as `Nat`, with the `(size_t)-1`
initial minimum represented as `2^64 - 1` (the tests target an LP64 host).
-/

namespace PAF

/-- Hamming weight: number of set bits, computed over at most 64 bits of
fuel, which covers every architectural value manipulated by the engine. -/
def hwAux : Nat → Nat → Nat
  | 0, _ => 0
  | fuel + 1, n => if n = 0 then 0 else n % 2 + hwAux fuel (n / 2)

/-- Hamming weight of a value (values are at most 64 bits wide). -/
def hammingWeight (n : Nat) : Nat := hwAux 64 n

/-- Hamming distance: number of differing bits between two values. -/
def hammingDistance (a b : Nat) : Nat := hammingWeight (Nat.xor a b)

/-! ## Event model: memory accesses, register accesses, instructions -/

/-- A single memory access performed by an instruction
(`PAF::MemoryAccess`). `isWrite = false` is a READ (load), `true` a WRITE
(store). -/
structure MemAccess where
  size : Nat
  addr : Nat
  value : Nat
  isWrite : Bool
deriving DecidableEq

/-- A single register access performed by an instruction
(`PAF::RegisterAccess`). -/
structure RegAccess where
  name : String
  value : Nat
  isWrite : Bool
deriving DecidableEq

/-- One executed instruction record (`PAF::ReferenceInstruction`): logical
time, execution-state flag, PC, instruction width, opcode, disassembly and
the ordered memory / register accesses. -/
structure RefInstruction where
  time : Nat
  executed : Bool
  pc : Nat
  width : Nat
  instruction : Nat
  disassembly : String
  memAccess : List MemAccess
  regAccess : List RegAccess
deriving DecidableEq

/-! ## TimingInfo

Modelled from the spec: `TimingInfo` (§4.5) tracks a per-trace cycle counter
starting at 0.  `add(address, cycles)` records `(address, counter)` into the
retained location list only while processing the very first trace ever seen,
then advances the counter; `incr(cycles)` only advances the counter;
`nextTrace()` folds the counter into running min/max (and the running sum and
trace count backing the average) and resets it, without clearing the retained
list.  The implementation file is absent from the snapshot; the model is
calibrated against `TEST(TimingInfo, Base)` in `src/unit-tests/Power.cpp`. -/
structure TimingInfo where
  cnt : Nat
  pcCycle : List (Nat × Nat)
  firstTrace : Bool
  cmin : Nat
  cmax : Nat
  total : Nat
  traces : Nat
deriving DecidableEq

/-- The maximum value of a 64-bit `size_t`, i.e. `(size_t)-1`. -/
def sizeTMax : Nat := 2 ^ 64 - 1

/-- A freshly constructed `TimingInfo`: counter at 0, empty retained list,
minimum at `(size_t)-1` and maximum at 0. -/
def TimingInfo.init : TimingInfo :=
  { cnt := 0, pcCycle := [], firstTrace := true, cmin := sizeTMax, cmax := 0,
    total := 0, traces := 0 }

/-- `TimingInfo::add(address, cycles)`: record the location (first trace
only), then advance the cycle counter. -/
def TimingInfo.add (ti : TimingInfo) (address cycles : Nat) : TimingInfo :=
  { ti with
    pcCycle := if ti.firstTrace then ti.pcCycle ++ [(address, ti.cnt)] else ti.pcCycle,
    cnt := ti.cnt + cycles }

/-- `TimingInfo::incr(cycles)`: advance the cycle counter without recording a
location. -/
def TimingInfo.incr (ti : TimingInfo) (cycles : Nat) : TimingInfo :=
  { ti with cnt := ti.cnt + cycles }

/-- `TimingInfo::nextTrace()`: fold the finished trace's cycle total into the
running statistics and reset the counter; the retained location list is kept
and later traces no longer record into it. -/
def TimingInfo.nextTrace (ti : TimingInfo) : TimingInfo :=
  { cnt := 0, pcCycle := ti.pcCycle, firstTrace := false,
    cmin := min ti.cmin ti.cnt, cmax := max ti.cmax ti.cnt,
    total := ti.total + ti.cnt, traces := ti.traces + 1 }

/-- `minimum()` accessor of the test subclass. -/
def TimingInfo.minimum (ti : TimingInfo) : Nat := ti.cmin

/-- `maximum()` accessor of the test subclass. -/
def TimingInfo.maximum (ti : TimingInfo) : Nat := ti.cmax

/-- `locations()` accessor of the test subclass. -/
def TimingInfo.locations (ti : TimingInfo) : List (Nat × Nat) := ti.pcCycle

/-! ## YAML timing sink

Modelled from the spec: the YAML-emitting `TimingInfo` variant serializes
`min`, `ave` (rounded the same way as `min`/`max`, i.e. to an integral cycle
count), `max`, and the location list as hex-address/cycle pairs, matching the
golden output of `TEST_F(YAMLTimingInfoF, Base)`. -/
def hexStr (n : Nat) : String := (Nat.toDigits 16 n).asString

/-- Average cycle count over the traces seen so far, as an integral value. -/
def TimingInfo.average (ti : TimingInfo) : Nat := ti.total / ti.traces

/-- One `[ 0xaddr, cycle ]` element of the YAML `cycles` list. -/
def yamlCycleEntry (p : Nat × Nat) : String :=
  "[ 0x" ++ hexStr p.1 ++ ", " ++ toString p.2 ++ " ]"

/-- `YAMLTimingInfo::save`: the exact text emitted for a `TimingInfo`. -/
def yamlTimingSave (ti : TimingInfo) : String :=
  "timing:\n  min: " ++ toString ti.minimum ++
  "\n  ave: " ++ toString ti.average ++
  "\n  max: " ++ toString ti.maximum ++
  "\n  cycles: [ " ++ String.intercalate ", " (ti.pcCycle.map yamlCycleEntry) ++ " ]\n"

/-! ## PowerTraceConfig

Modelled from the spec: a bitmask value with one flag per leakage facet;
`set` accumulates flags, `clear()` turns all off, the default-constructed
state has all flags on; `withAll()`/`withNone()` are the all-on/all-off
predicates and `withMemoryAccessTransitions()` is the OR of the four
transition flags (calibrated against `TEST(PowerTraceConfig, base)`). -/
structure PowerTraceConfig where
  withPC : Bool
  withOpcode : Bool
  withMemAddress : Bool
  withMemData : Bool
  withInstructionsInputs : Bool
  withInstructionsOutputs : Bool
  withLoadToLoadTransitions : Bool
  withStoreToStoreTransitions : Bool
  withLastMemoryAccessTransitions : Bool
  withMemoryUpdateTransitions : Bool
deriving DecidableEq

/-- The selectable leakage facets (`PowerTraceConfig::Selection`). -/
inductive PTCFlag
  | WITH_PC
  | WITH_OPCODE
  | WITH_MEM_ADDRESS
  | WITH_MEM_DATA
  | WITH_INSTRUCTIONS_INPUTS
  | WITH_INSTRUCTIONS_OUTPUTS
  | WITH_LOAD_TO_LOAD_TRANSITIONS
  | WITH_STORE_TO_STORE_TRANSITIONS
  | WITH_LAST_MEMORY_ACCESSES_TRANSITIONS
  | WITH_MEMORY_UPDATE_TRANSITIONS
deriving DecidableEq

/-- The list of all individual facet flags. -/
def allPTCFlags : List PTCFlag :=
  [.WITH_PC, .WITH_OPCODE, .WITH_MEM_ADDRESS, .WITH_MEM_DATA,
   .WITH_INSTRUCTIONS_INPUTS, .WITH_INSTRUCTIONS_OUTPUTS,
   .WITH_LOAD_TO_LOAD_TRANSITIONS, .WITH_STORE_TO_STORE_TRANSITIONS,
   .WITH_LAST_MEMORY_ACCESSES_TRANSITIONS, .WITH_MEMORY_UPDATE_TRANSITIONS]

/-- Whether a given facet flag is set in a `PowerTraceConfig`. -/
def PowerTraceConfig.flagSet (c : PowerTraceConfig) : PTCFlag → Bool
  | .WITH_PC => c.withPC
  | .WITH_OPCODE => c.withOpcode
  | .WITH_MEM_ADDRESS => c.withMemAddress
  | .WITH_MEM_DATA => c.withMemData
  | .WITH_INSTRUCTIONS_INPUTS => c.withInstructionsInputs
  | .WITH_INSTRUCTIONS_OUTPUTS => c.withInstructionsOutputs
  | .WITH_LOAD_TO_LOAD_TRANSITIONS => c.withLoadToLoadTransitions
  | .WITH_STORE_TO_STORE_TRANSITIONS => c.withStoreToStoreTransitions
  | .WITH_LAST_MEMORY_ACCESSES_TRANSITIONS => c.withLastMemoryAccessTransitions
  | .WITH_MEMORY_UPDATE_TRANSITIONS => c.withMemoryUpdateTransitions

/-- `PowerTraceConfig::set(flag)`: accumulating, never clears a flag. -/
def PowerTraceConfig.set (c : PowerTraceConfig) : PTCFlag → PowerTraceConfig
  | .WITH_PC => { c with withPC := true }
  | .WITH_OPCODE => { c with withOpcode := true }
  | .WITH_MEM_ADDRESS => { c with withMemAddress := true }
  | .WITH_MEM_DATA => { c with withMemData := true }
  | .WITH_INSTRUCTIONS_INPUTS => { c with withInstructionsInputs := true }
  | .WITH_INSTRUCTIONS_OUTPUTS => { c with withInstructionsOutputs := true }
  | .WITH_LOAD_TO_LOAD_TRANSITIONS => { c with withLoadToLoadTransitions := true }
  | .WITH_STORE_TO_STORE_TRANSITIONS => { c with withStoreToStoreTransitions := true }
  | .WITH_LAST_MEMORY_ACCESSES_TRANSITIONS => { c with withLastMemoryAccessTransitions := true }
  | .WITH_MEMORY_UPDATE_TRANSITIONS => { c with withMemoryUpdateTransitions := true }

/-- A sequence of `set()` calls. -/
def PowerTraceConfig.setMany (c : PowerTraceConfig) (fs : List PTCFlag) : PowerTraceConfig :=
  fs.foldl PowerTraceConfig.set c

/-- `PowerTraceConfig::clear()`: all flags off. -/
def PowerTraceConfig.clear (_ : PowerTraceConfig) : PowerTraceConfig :=
  ⟨false, false, false, false, false, false, false, false, false, false⟩

/-- Default-constructed `PowerTraceConfig`: all flags on. -/
def PowerTraceConfig.init : PowerTraceConfig :=
  ⟨true, true, true, true, true, true, true, true, true, true⟩

/-- `withAll()`: every facet flag is set. -/
def PowerTraceConfig.withAll (c : PowerTraceConfig) : Bool :=
  allPTCFlags.all c.flagSet

/-- `withNone()`: no facet flag is set. -/
def PowerTraceConfig.withNone (c : PowerTraceConfig) : Bool :=
  allPTCFlags.all fun f => !(c.flagSet f)

/-- `withMemoryAccessTransitions()`: OR of the four transition flags. -/
def PowerTraceConfig.withMemoryAccessTransitions (c : PowerTraceConfig) : Bool :=
  c.withLoadToLoadTransitions || c.withStoreToStoreTransitions ||
  c.withLastMemoryAccessTransitions || c.withMemoryUpdateTransitions

/-! ## PowerAnalysisConfig

Modelled from the spec: one configured analysis pass bundling the power model
kind, the noise enable flag and the scalar produced by its noise source
(`NoiseSource::ZERO` always draws 0, `NoiseSource::CONSTANT` always draws its
amplitude); `set(m)` switches the model in place without touching noise,
`setWithNoise`/`setWithoutNoise` toggle noise independently of the model. -/
inductive PowerModel
  | HAMMING_WEIGHT
  | HAMMING_DISTANCE
deriving DecidableEq

/-- One configured analysis pass (noise draw modelled as the constant scalar
its deterministic `NoiseSource` produces). -/
structure PowerAnalysisConfig where
  powerModel : PowerModel
  noise : Bool
  noiseDraw : ℚ
deriving DecidableEq

/-- `PowerAnalysisConfig::set(m)`: switch the power model in place. -/
def PowerAnalysisConfig.set (c : PowerAnalysisConfig) (m : PowerModel) : PowerAnalysisConfig :=
  { c with powerModel := m }

/-- `setWithNoise()`: enable noise, leaving the model untouched. -/
def PowerAnalysisConfig.setWithNoise (c : PowerAnalysisConfig) : PowerAnalysisConfig :=
  { c with noise := true }

/-- `setWithoutNoise()`: disable noise, leaving the model untouched. -/
def PowerAnalysisConfig.setWithoutNoise (c : PowerAnalysisConfig) : PowerAnalysisConfig :=
  { c with noise := false }

/-- `isHammingWeight()`. -/
def PowerAnalysisConfig.isHammingWeight (c : PowerAnalysisConfig) : Bool :=
  c.powerModel = PowerModel.HAMMING_WEIGHT

/-- `isHammingDistance()`. -/
def PowerAnalysisConfig.isHammingDistance (c : PowerAnalysisConfig) : Bool :=
  c.powerModel = PowerModel.HAMMING_DISTANCE

/-- `getPowerModel()`. -/
def PowerAnalysisConfig.getPowerModel (c : PowerAnalysisConfig) : PowerModel :=
  c.powerModel

/-- `addNoise()`: whether a noise draw is added to each sample's total. -/
def PowerAnalysisConfig.addNoise (c : PowerAnalysisConfig) : Bool := c.noise

/-- `getNoise()`: the scalar drawn from the owned noise source. -/
def PowerAnalysisConfig.getNoise (c : PowerAnalysisConfig) : ℚ := c.noiseDraw

/-! ## The PowerTrace engine

Modelled from the spec (§4.4): `analyze()` walks the instruction list in
order; each instruction contributes one leakage sample, or one sample per
memory access when it performs several; only the first sample carries a
back-reference to the instruction, the following ones share its PC/opcode
contributions.  Each sample is a tuple of independent per-facet terms plus a
total.  The absent implementation is calibrated against the golden values of
`TEST(PowerTrace, base)`, `TEST(PowerTrace, HammingWeightWithConfig)` and
`TEST(PowerTrace, HammingDistanceWithConfig)`, which fix the calibration
weights folded into the total (PC and opcode weight 1, register and memory
data weight 2, status registers weight 1/2, memory address weight 6/5) while
the per-facet fields of the tuple report the unweighted bit counts. -/

/-- The `Oracle`: prior-state query service (register bank snapshot before
time `t`, memory content before time `t`). -/
structure Oracle where
  getRegBankState : Nat → List Nat
  getMemoryState : Nat → Nat → Nat → Nat

/-- The null/default `Oracle`: all zeros. -/
def Oracle.default : Oracle :=
  { getRegBankState := fun _ => List.replicate 18 0,
    getMemoryState := fun _ _ _ => 0 }

/-- One simulated power reading handed to a power sink: the total and the
per-facet contributions, plus the optional back-reference to the originating
instruction (absent for synthetic extra cycles). -/
structure PowerSample where
  total : ℚ
  pc : ℚ
  instr : ℚ
  oreg : ℚ
  ireg : ℚ
  addr : ℚ
  data : ℚ
  inst : Option RefInstruction
deriving DecidableEq

/-- Status registers (condition-code registers) weigh 1/2 in the total,
ordinary registers weigh 2 (calibrated from the unit tests' golden totals). -/
def isStatusReg (name : String) : Bool := name = "cpsr" || name = "psr"

/-- The weight a register's bit count contributes to the sample total. -/
def regWeight (name : String) : ℚ := if isStatusReg name then 1 / 2 else 2

/-- Map from a register name to its index in an `Oracle` register-bank
snapshot, for the Arm V7M register bank used by the unit tests. -/
def v7mRegIndex (name : String) : Nat :=
  if name = "r0" then 0 else if name = "r1" then 1
  else if name = "r2" then 2 else if name = "r3" then 3
  else if name = "r4" then 4 else if name = "r5" then 5
  else if name = "r6" then 6 else if name = "r7" then 7
  else if name = "r8" then 8 else if name = "r9" then 9
  else if name = "r10" then 10 else if name = "r11" then 11
  else if name = "r12" then 12 else if name = "msp" then 13
  else if name = "lr" then 14 else if name = "pc" then 15
  else if name = "cpsr" then 16 else 17

/-- Memory-access history threaded through the analysis, designating the
"previous" access of each transition class. -/
structure MemHistory where
  lastLoad : Option MemAccess
  lastStore : Option MemAccess
  lastAccess : Option MemAccess
deriving DecidableEq

/-- Empty history: no memory access seen yet. -/
def MemHistory.empty : MemHistory := ⟨none, none, none⟩

/-- Record one access into the history. -/
def MemHistory.update (h : MemHistory) (a : MemAccess) : MemHistory :=
  { lastLoad := if a.isWrite then h.lastLoad else some a,
    lastStore := if a.isWrite then some a else h.lastStore,
    lastAccess := some a }

/-- PC term of a sample: Hamming weight of the PC (weight model) or Hamming
distance against the previous instruction's PC (distance model); identical
for every sample of one instruction. -/
def pcContribution (ptc : PowerTraceConfig) (pac : PowerAnalysisConfig)
    (prev : Option RefInstruction) (I : RefInstruction) : ℚ :=
  if ptc.withPC then
    match pac.powerModel with
    | .HAMMING_WEIGHT => (hammingWeight I.pc : ℚ)
    | .HAMMING_DISTANCE =>
        (hammingDistance I.pc ((prev.map RefInstruction.pc).getD 0) : ℚ)
  else 0

/-- Opcode term of a sample; identical for every sample of one
instruction. -/
def opcodeContribution (ptc : PowerTraceConfig) (pac : PowerAnalysisConfig)
    (prev : Option RefInstruction) (I : RefInstruction) : ℚ :=
  if ptc.withOpcode then
    match pac.powerModel with
    | .HAMMING_WEIGHT => (hammingWeight I.instruction : ℚ)
    | .HAMMING_DISTANCE =>
        (hammingDistance I.instruction ((prev.map RefInstruction.instruction).getD 0) : ℚ)
  else 0

/-- Instruction-inputs term (unweighted bit count): the sum over register
READ accesses of the Hamming weight of the read value in the weight model;
instruction inputs are ignored (term 0) in the distance model, as pinned by
`TEST(PowerTrace, HammingDistanceWithConfig)`. -/
def iregContribution (ptc : PowerTraceConfig) (pac : PowerAnalysisConfig)
    (ras : List RegAccess) : ℚ :=
  if ptc.withInstructionsInputs then
    match pac.powerModel with
    | .HAMMING_WEIGHT =>
        ((ras.filter fun r => !r.isWrite).map fun r => (hammingWeight r.value : ℚ)).sum
    | .HAMMING_DISTANCE => 0
  else 0

/-- Per-write bit count for the instruction-outputs facet: Hamming weight of
the written value, or Hamming distance against the `Oracle`'s pre-instruction
value of that register. -/
def oregValue (pac : PowerAnalysisConfig) (oracle : Oracle)
    (regIndex : String → Nat) (I : RefInstruction) (r : RegAccess) : ℚ :=
  match pac.powerModel with
  | .HAMMING_WEIGHT => (hammingWeight r.value : ℚ)
  | .HAMMING_DISTANCE =>
      (hammingDistance r.value
        ((oracle.getRegBankState (I.time - 1)).getD (regIndex r.name) 0) : ℚ)

/-- Instruction-outputs term: `(unweighted bit count, weighted total
contribution)` over the register WRITE accesses attached to this sample. -/
def oregContribution (ptc : PowerTraceConfig) (pac : PowerAnalysisConfig)
    (oracle : Oracle) (regIndex : String → Nat) (I : RefInstruction)
    (ras : List RegAccess) : ℚ × ℚ :=
  if ptc.withInstructionsOutputs then
    let ws := ras.filter fun r => r.isWrite
    ((ws.map fun r => oregValue pac oracle regIndex I r).sum,
     (ws.map fun r => regWeight r.name * oregValue pac oracle regIndex I r).sum)
  else (0, 0)

/-- Memory-address term (unweighted) for the access consumed by a sample:
Hamming weight in the weight model; in the distance model, Hamming distance
against the designated previous access's address (same kind for
load-to-load/store-to-store, any kind for last-access), 0 when no transition
class applies. -/
def addrContribution (ptc : PowerTraceConfig) (pac : PowerAnalysisConfig)
    (hist : MemHistory) (a : MemAccess) : ℚ :=
  if ptc.withMemAddress then
    match pac.powerModel with
    | .HAMMING_WEIGHT => (hammingWeight a.addr : ℚ)
    | .HAMMING_DISTANCE =>
        if ptc.withLoadToLoadTransitions && !a.isWrite then
          (hammingDistance a.addr ((hist.lastLoad.map MemAccess.addr).getD 0) : ℚ)
        else if ptc.withStoreToStoreTransitions && a.isWrite then
          (hammingDistance a.addr ((hist.lastStore.map MemAccess.addr).getD 0) : ℚ)
        else if ptc.withLastMemoryAccessTransitions then
          (hammingDistance a.addr ((hist.lastAccess.map MemAccess.addr).getD 0) : ℚ)
        else 0
  else 0

/-- Memory-data term (unweighted) for the access consumed by a sample:
Hamming weight in the weight model; in the distance model, Hamming distance
against the designated previous value — the `Oracle`'s pre-access memory
content for memory-update transitions (writes only), else the previous
qualifying access's value; 0 when no transition class applies. -/
def dataContribution (ptc : PowerTraceConfig) (pac : PowerAnalysisConfig)
    (oracle : Oracle) (I : RefInstruction) (hist : MemHistory)
    (a : MemAccess) : ℚ :=
  if ptc.withMemData then
    match pac.powerModel with
    | .HAMMING_WEIGHT => (hammingWeight a.value : ℚ)
    | .HAMMING_DISTANCE =>
        if ptc.withMemoryUpdateTransitions && a.isWrite then
          (hammingDistance a.value (oracle.getMemoryState a.addr a.size (I.time - 1)) : ℚ)
        else if ptc.withLoadToLoadTransitions && !a.isWrite then
          (hammingDistance a.value ((hist.lastLoad.map MemAccess.value).getD 0) : ℚ)
        else if ptc.withStoreToStoreTransitions && a.isWrite then
          (hammingDistance a.value ((hist.lastStore.map MemAccess.value).getD 0) : ℚ)
        else if ptc.withLastMemoryAccessTransitions then
          (hammingDistance a.value ((hist.lastAccess.map MemAccess.value).getD 0) : ℚ)
        else 0
  else 0

/-- The register accesses attached to sample `j` of an instruction with `k`
memory accesses: a single-sample instruction keeps all of them on sample 0; a
multi-access instruction distributes them one per sample, pairing register
access `j` with memory access `j` (a multi-word load writes register `j` with
the value of bus cycle `j`). -/
def regAccessesFor (I : RefInstruction) (k j : Nat) : List RegAccess :=
  if k ≤ 1 then I.regAccess else (I.regAccess.drop j).take 1

/-- Build the leakage tuple of one sample. -/
def computeSample (ptc : PowerTraceConfig) (pac : PowerAnalysisConfig)
    (regIndex : String → Nat) (oracle : Oracle) (prev : Option RefInstruction)
    (hist : MemHistory) (I : RefInstruction) (j : Nat) (acc : Option MemAccess)
    (ras : List RegAccess) : PowerSample :=
  let pcB := pcContribution ptc pac prev I
  let opB := opcodeContribution ptc pac prev I
  let oregBW := oregContribution ptc pac oracle regIndex I ras
  let iregB := iregContribution ptc pac ras
  let addrB := match acc with
    | none => 0
    | some a => addrContribution ptc pac hist a
  let dataB := match acc with
    | none => 0
    | some a => dataContribution ptc pac oracle I hist a
  let noiseQ := if pac.noise then pac.noiseDraw else 0
  { total := pcB + opB + oregBW.2 + 2 * iregB + 6 / 5 * addrB + 2 * dataB + noiseQ,
    pc := pcB, instr := opB, oreg := oregBW.1, ireg := iregB,
    addr := addrB, data := dataB,
    inst := if j = 0 then some I else none }

/-- Emit one sample per memory access (samples `j`, `j+1`, ...), threading
the memory-access history. -/
def samplesGo (ptc : PowerTraceConfig) (pac : PowerAnalysisConfig)
    (regIndex : String → Nat) (oracle : Oracle) (prev : Option RefInstruction)
    (I : RefInstruction) (k : Nat) :
    Nat → List MemAccess → MemHistory → List PowerSample × MemHistory
  | _, [], h => ([], h)
  | j, a :: rest, h =>
    let s := computeSample ptc pac regIndex oracle prev h I j (some a)
      (regAccessesFor I k j)
    let r := samplesGo ptc pac regIndex oracle prev I k (j + 1) rest (h.update a)
    (s :: r.1, r.2)

/-- All the samples one instruction contributes (1, or one per memory
access), together with the updated memory-access history. -/
def instructionSamples (ptc : PowerTraceConfig) (pac : PowerAnalysisConfig)
    (regIndex : String → Nat) (oracle : Oracle) (prev : Option RefInstruction)
    (hist : MemHistory) (I : RefInstruction) : List PowerSample × MemHistory :=
  if I.memAccess.isEmpty then
    ([computeSample ptc pac regIndex oracle prev hist I 0 none I.regAccess], hist)
  else
    samplesGo ptc pac regIndex oracle prev I I.memAccess.length 0 I.memAccess hist

/-- Walk the instruction list, emitting each instruction's sample group. -/
def analyzeGo (ptc : PowerTraceConfig) (pac : PowerAnalysisConfig)
    (regIndex : String → Nat) (oracle : Oracle) :
    Option RefInstruction → MemHistory → List RefInstruction →
      List (List PowerSample)
  | _, _, [] => []
  | prev, hist, I :: rest =>
    let r := instructionSamples ptc pac regIndex oracle prev hist I
    r.1 :: analyzeGo ptc pac regIndex oracle (some I) r.2 rest

/-- The samples `analyze()` hands to one `PowerAnalysisConfig`'s power sink,
grouped per instruction (the sink receives their concatenation, in order). -/
def analyzeSamples (ptc : PowerTraceConfig) (pac : PowerAnalysisConfig)
    (regIndex : String → Nat) (oracle : Oracle)
    (trace : List RefInstruction) : List (List PowerSample) :=
  analyzeGo ptc pac regIndex oracle none MemHistory.empty trace

/-- The observable dump state `analyze()` leaves in the auxiliary dumpers:
per-instruction register-bank snapshots, per-instruction memory accesses, and
the dumped instructions — each produced only when the respective dumper is
enabled (lifecycle hooks are not part of the dump state). -/
structure DumperLogs where
  regbankDumps : List (List Nat)
  memDumps : List (Nat × List MemAccess)
  instrDumps : List RefInstruction
deriving DecidableEq

/-- One full `analyze()` pass: every active `PowerAnalysisConfig` receives
its own sample stream, and the enabled auxiliary dumpers receive their
per-instruction data. -/
def analyze (ptc : PowerTraceConfig) (configs : List PowerAnalysisConfig)
    (regIndex : String → Nat) (oracle : Oracle) (trace : List RefInstruction)
    (rbEnabled maEnabled idEnabled : Bool) :
    List (List (List PowerSample)) × DumperLogs :=
  (configs.map fun pac => analyzeSamples ptc pac regIndex oracle trace,
   { regbankDumps :=
       if rbEnabled then trace.map (fun I => oracle.getRegBankState I.time) else [],
     memDumps := if maEnabled then trace.map (fun I => (I.pc, I.memAccess)) else [],
     instrDumps := if idEnabled then trace else [] })

/-! ## PowerTrace bookkeeping

`PowerTrace` owns the ordered instruction list and the architecture
descriptor; `add` appends, `size()`/indexed access return the list in
insertion order, and the trace is movable, preserving previously added
instructions (modelled from the spec; a C++ move transfers the owned list
unchanged, so it is the identity on the observable value). -/
structure PowerTrace where
  config : PowerTraceConfig
  archDescription : String
  instructions : List RefInstruction
deriving DecidableEq

/-- `PowerTrace(PowerTraceConfig, ArchInfo)`: empty instruction list. -/
def PowerTrace.mkTrace (ptc : PowerTraceConfig) (arch : String) : PowerTrace :=
  ⟨ptc, arch, []⟩

/-- `PowerTrace::add(instruction)`: append to the owned list. -/
def PowerTrace.add (pt : PowerTrace) (I : RefInstruction) : PowerTrace :=
  { pt with instructions := pt.instructions ++ [I] }

/-- A sequence of `add` calls. -/
def PowerTrace.addAll (pt : PowerTrace) (l : List RefInstruction) : PowerTrace :=
  l.foldl PowerTrace.add pt

/-- `PowerTrace::size()`. -/
def PowerTrace.size (pt : PowerTrace) : Nat := pt.instructions.length

/-- Indexed access `PT[i]`. -/
def PowerTrace.getInstr (pt : PowerTrace) (i : Nat) : Option RefInstruction :=
  pt.instructions.get? i

/-- `getArchInfo()`: the architecture descriptor supplied at construction. -/
def PowerTrace.getArchInfo (pt : PowerTrace) : String := pt.archDescription

/-- Modelled from the spec: the move constructor `PowerTrace(PowerTrace&&)`
transfers the owned instruction list, configuration and architecture
descriptor unchanged, so on the observable value it is the identity. -/
def PowerTrace.moveConstruct (pt : PowerTrace) : PowerTrace := pt

/-- `PowerTrace::analyze` driven from the object: the engine pass over the
owned instruction list. -/
def PowerTrace.analyzeAll (pt : PowerTrace) (configs : List PowerAnalysisConfig)
    (regIndex : String → Nat) (oracle : Oracle)
    (rbEnabled maEnabled idEnabled : Bool) :
    List (List (List PowerSample)) × DumperLogs :=
  analyze pt.config configs regIndex oracle pt.instructions rbEnabled maEnabled idEnabled

/-! ## Statistical distinguishers

Modelled from the spec (§4.6): `t_test` computes, per column, Welch's
t-statistic between the two groups' sample means using each group's sample
variance; `perfect_t_test` is the numerically-stable streaming computation of
the same statistic (one Welford pass per column accumulating count, running
mean and running sum of squared deviations), optionally verbose.  Both
restrict computation to the caller-specified sample range `[b, e)`.  The
final square root is the same library routine in both computations, so it is
abstracted as a function parameter `sqrtFn` applied to the exactly-computed
variance term; arithmetic is exact (`ℚ`). -/

/-- Column `c` of a trace matrix (rows = traces). -/
def colVals (m : List (List ℚ)) (c : Nat) : List ℚ := m.map fun r => r.getD c 0

/-- Two-pass mean. -/
def listMean (xs : List ℚ) : ℚ := xs.sum / xs.length

/-- Two-pass sample variance (division by `n - 1`). -/
def listSampleVar (xs : List ℚ) : ℚ :=
  ((xs.map fun x => (x - listMean xs) ^ 2).sum) / ((xs.length : ℚ) - 1)

/-- Welch's t-statistic between two samples. -/
def welchT (sqrtFn : ℚ → ℚ) (xs0 xs1 : List ℚ) : ℚ :=
  (listMean xs0 - listMean xs1) /
    sqrtFn (listSampleVar xs0 / xs0.length + listSampleVar xs1 / xs1.length)

/-- `t_test(b, e, group0, group1)`: per-column Welch t-statistic over the
sample range `[b, e)`. -/
def t_test (sqrtFn : ℚ → ℚ) (b e : Nat) (g0 g1 : List (List ℚ)) : List ℚ :=
  (List.range' b (e - b)).map fun c => welchT sqrtFn (colVals g0 c) (colVals g1 c)

/-- Streaming (Welford) accumulator: element count, running mean and running
sum of squared deviations from the running mean. -/
structure WelfordState where
  n : Nat
  mean : ℚ
  m2 : ℚ
deriving DecidableEq

/-- One streaming update. -/
def WelfordState.step (s : WelfordState) (x : ℚ) : WelfordState :=
  let d := x - s.mean
  let mean' := s.mean + d / (s.n + 1)
  ⟨s.n + 1, mean', s.m2 + d * (x - mean')⟩

/-- Run the streaming accumulator over a sample. -/
def welfordRun (xs : List ℚ) : WelfordState :=
  xs.foldl WelfordState.step ⟨0, 0, 0⟩

/-- Streaming mean. -/
def perfectMean (xs : List ℚ) : ℚ := (welfordRun xs).mean

/-- Streaming sample variance. -/
def perfectVar (xs : List ℚ) : ℚ :=
  (welfordRun xs).m2 / (((welfordRun xs).n : ℚ) - 1)

/-- Welch's t-statistic computed from the streaming accumulators. -/
def perfectWelchT (sqrtFn : ℚ → ℚ) (xs0 xs1 : List ℚ) : ℚ :=
  (perfectMean xs0 - perfectMean xs1) /
    sqrtFn (perfectVar xs0 / (welfordRun xs0).n + perfectVar xs1 / (welfordRun xs1).n)

/-- `perfect_t_test(b, e, group0, group1, os)`: the streaming alternative;
the `verbose` flag selects progress reporting on the optional stream and does
not affect the returned statistics. -/
def perfect_t_test (sqrtFn : ℚ → ℚ) (b e : Nat) (g0 g1 : List (List ℚ))
    (verbose : Bool) : List ℚ :=
  (List.range' b (e - b)).map fun c =>
    perfectWelchT sqrtFn (colVals g0 c) (colVals g1 c)

/-- Per-trace classification for the 3-way t-test interface. -/
inductive Classification
  | GROUP_0
  | GROUP_1
  | IGNORE
deriving DecidableEq

/-- Rows of the trace matrix classified into a given group (ignored traces
belong to neither group). -/
def selectGroup (m : List (List ℚ)) (cls : List Classification)
    (g : Classification) : List (List ℚ) :=
  ((m.zip cls).filter fun p => p.2 = g).map Prod.fst

/-- `t_test(b, e, traces, classifier)`: classifier form. -/
def t_testClassified (sqrtFn : ℚ → ℚ) (b e : Nat) (m : List (List ℚ))
    (cls : List Classification) : List ℚ :=
  t_test sqrtFn b e (selectGroup m cls .GROUP_0) (selectGroup m cls .GROUP_1)

/-- `perfect_t_test(b, e, traces, classifier, os)`: classifier form. -/
def perfect_t_testClassified (sqrtFn : ℚ → ℚ) (b e : Nat) (m : List (List ℚ))
    (cls : List Classification) (verbose : Bool) : List ℚ :=
  perfect_t_test sqrtFn b e (selectGroup m cls .GROUP_0) (selectGroup m cls .GROUP_1)
    verbose

/-! ## Concrete data of the unit tests

The `Insts` instruction sequence of `src/unit-tests/Power.cpp`, used to pin
the engine model to the tests' golden values and as witness inputs. -/

/-- `Insts[0]`: `MOVS r1,#5`. -/
def inst0 : RefInstruction :=
  { time := 27, executed := true, pc := 0x089bc, width := 16,
    instruction := 0x02105, disassembly := "MOVS r1,#5",
    memAccess := [],
    regAccess := [⟨"r1", 5, true⟩, ⟨"cpsr", 0x21000000, true⟩] }

/-- `Insts[1]`: `MOV r2,r1` (one register READ of `r1 = 5`). -/
def inst1 : RefInstruction :=
  { time := 28, executed := true, pc := 0x089be, width := 16,
    instruction := 0x0460a, disassembly := "MOV r2,r1",
    memAccess := [],
    regAccess := [⟨"r1", 5, false⟩, ⟨"r2", 5, true⟩] }

/-- `Insts[2]`: `STRD r5,r1,[r2,#-0x10]` (two memory WRITEs). -/
def inst2 : RefInstruction :=
  { time := 29, executed := true, pc := 0x08326, width := 32,
    instruction := 0xe9425504, disassembly := "STRD r5,r1,[r2,#-0x10]",
    memAccess := [⟨4, 0x00021afc, 5, true⟩, ⟨4, 0x00021b00, 5, true⟩],
    regAccess := [] }

/-- `Insts[3]`: `LDRD r3,r4,[r6,#4]` (two memory READs, two register
WRITEs). -/
def inst3 : RefInstruction :=
  { time := 30, executed := true, pc := 0x0832a, width := 32,
    instruction := 0xe9d63401, disassembly := "LDRD r3,r4,[r6,#4]",
    memAccess := [⟨4, 0x00021f5c, 0x00000003, false⟩,
                  ⟨4, 0x00021f60, 0x00021f64, false⟩],
    regAccess := [⟨"r3", 0x00000003, true⟩, ⟨"r4", 0x00021f64, true⟩] }

/-- The `Insts` array of the unit tests. -/
def insts : List RefInstruction := [inst0, inst1, inst2, inst3]

/-- A Hamming-weight analysis configuration with a zero noise source
(`NoiseSource::ZERO`). -/
def hwZeroPac : PowerAnalysisConfig := ⟨.HAMMING_WEIGHT, true, 0⟩

/-- A Hamming-distance analysis configuration with a zero noise source. -/
def hdZeroPac : PowerAnalysisConfig := ⟨.HAMMING_DISTANCE, true, 0⟩

/-- `PowerTraceConfig` cleared, then a single facet set. -/
def cfgOnly (f : PTCFlag) : PowerTraceConfig := PowerTraceConfig.init.clear.set f

/-- The spec sentence behind claim C2, as a definition following its words:
"for instruction inputs, the sum over all register READ accesses of the
Hamming distance against the `Oracle`'s pre-instruction value" (distance
model). -/
def claimedInputsTermHD (oracle : Oracle) (regIndex : String → Nat)
    (I : RefInstruction) : ℚ :=
  ((I.regAccess.filter fun r => !r.isWrite).map fun r =>
    (hammingDistance r.value
      ((oracle.getRegBankState (I.time - 1)).getD (regIndex r.name) 0) : ℚ)).sum

/-! ## Claims about TimingInfo and its YAML sink -/

/-- C3: a `TimingInfo` starting empty, after `add(124,2)`, `add(128,4)`,
`incr(4)`, `add(132,1)`, `nextTrace()` has `minimum() == 11`,
`maximum() == 11` and `locations() == [(124,0),(128,2),(132,10)]`; after then
processing a second trace `add(124,2)`, `incr(2)`, `add(132,1)`,
`nextTrace()` it has `minimum() == 5`, `maximum() == 11` and `locations()`
unchanged — the retained list always reflects the first trace ever seen. -/
theorem timingInfo_two_trace_bookkeeping :
    (((((TimingInfo.init.add 124 2).add 128 4).incr 4).add 132 1).nextTrace.minimum = 11 ∧
     ((((TimingInfo.init.add 124 2).add 128 4).incr 4).add 132 1).nextTrace.maximum = 11 ∧
     ((((TimingInfo.init.add 124 2).add 128 4).incr 4).add 132 1).nextTrace.locations =
       [(124, 0), (128, 2), (132, 10)]) ∧
    ((((((((TimingInfo.init.add 124 2).add 128 4).incr 4).add 132 1).nextTrace.add
          124 2).incr 2).add 132 1).nextTrace.minimum = 5 ∧
     (((((((TimingInfo.init.add 124 2).add 128 4).incr 4).add 132 1).nextTrace.add
          124 2).incr 2).add 132 1).nextTrace.maximum = 11 ∧
     (((((((TimingInfo.init.add 124 2).add 128 4).incr 4).add 132 1).nextTrace.add
          124 2).incr 2).add 132 1).nextTrace.locations =
       ((((TimingInfo.init.add 124 2).add 128 4).incr 4).add 132 1).nextTrace.locations) := by
  decide

/-- C10: a freshly constructed `TimingInfo`, before any `nextTrace()`,
reports `minimum()` equal to the maximum `size_t` value `(size_t)-1`
(i.e. `2^64 - 1` on the 64-bit host the tests target), `maximum()` equal to
0, and an empty `locations()` list. -/
theorem timingInfo_initial_state :
    TimingInfo.init.minimum = sizeTMax ∧ sizeTMax = 2 ^ 64 - 1 ∧
      TimingInfo.init.maximum = 0 ∧ TimingInfo.init.locations = [] := by
  decide

/-- C5: saving a `YAMLTimingInfo` after `add(123,2)`, `add(124,1)`,
`add(125,1)`, `incr(4)`, `nextTrace()` produces exactly the golden text with
hex addresses and the average rounded like `min`/`max`. -/
theorem yamlTimingInfo_golden_output :
    yamlTimingSave (((((TimingInfo.init.add 123 2).add 124 1).add 125 1).incr 4).nextTrace) =
      "timing:\n  min: 8\n  ave: 8\n  max: 8\n  cycles: [ [ 0x7b, 0 ], [ 0x7c, 2 ], [ 0x7d, 3 ] ]\n" := by
  decide

/-! ## Claims about the configuration objects -/

/-- `set()` never clears a previously set flag (single step). -/
theorem flagSet_set_mono (c : PowerTraceConfig) (g f : PTCFlag)
    (h : c.flagSet f = true) : (c.set g).flagSet f = true := by
  cases f <;> cases g <;>
    simp_all [PowerTraceConfig.set, PowerTraceConfig.flagSet]

/-- C6: for every sequence of `set()` calls every previously-set flag remains
set; `clear()` resets to the `withNone()` state with every per-flag predicate
false; a default-constructed `PowerTraceConfig` satisfies `withAll()`, and
`withAll()` also holds after setting every individual flag. -/
theorem powerTraceConfig_set_monotone_clear_all :
    (∀ (c : PowerTraceConfig) (fs : List PTCFlag) (f : PTCFlag),
        c.flagSet f = true → (c.setMany fs).flagSet f = true) ∧
    (∀ c : PowerTraceConfig, (c.clear).withNone = true) ∧
    (∀ (c : PowerTraceConfig) (f : PTCFlag), (c.clear).flagSet f = false) ∧
    PowerTraceConfig.init.withAll = true ∧
    (∀ c : PowerTraceConfig, (c.setMany allPTCFlags).withAll = true) := by
  refine ⟨?_, ?_, ?_, by decide, ?_⟩
  · intro c fs
    induction fs generalizing c with
    | nil => intro f h; exact h
    | cons g gs ih =>
      intro f h
      exact ih (c.set g) f (flagSet_set_mono c g f h)
  · intro c; rfl
  · intro c f; cases f <;> rfl
  · intro c
    rcases c with ⟨_, _, _, _, _, _, _, _, _, _⟩
    rfl

/-- Witness for C6 at a concrete input: `WITH_PC`, once set on a cleared
configuration, survives further `set()` calls. -/
theorem powerTraceConfig_set_monotone_clear_all_witness :
    ((PowerTraceConfig.init.clear.set .WITH_PC).flagSet .WITH_PC = true) ∧
      ((PowerTraceConfig.init.clear.set .WITH_PC).setMany
          [.WITH_OPCODE, .WITH_MEM_DATA]).flagSet .WITH_PC = true :=
  ⟨by decide,
   powerTraceConfig_set_monotone_clear_all.1
     (PowerTraceConfig.init.clear.set .WITH_PC)
     [.WITH_OPCODE, .WITH_MEM_DATA] .WITH_PC (by decide)⟩

/-- C7: after `PowerAnalysisConfig::set(m)`, exactly one of
`isHammingWeight()`/`isHammingDistance()` is true and it matches `m` (and
`getPowerModel() == m`); toggling noise with `setWithNoise()` or
`setWithoutNoise()` never changes which model predicate holds. -/
theorem powerAnalysisConfig_model_exclusivity :
    ∀ (c : PowerAnalysisConfig) (m : PowerModel),
      (((c.set m).isHammingWeight = true) ↔ m = PowerModel.HAMMING_WEIGHT) ∧
      (((c.set m).isHammingDistance = true) ↔ m = PowerModel.HAMMING_DISTANCE) ∧
      (((c.set m).isHammingWeight = true) ↔ ¬ ((c.set m).isHammingDistance = true)) ∧
      (c.set m).getPowerModel = m ∧
      (c.setWithNoise).isHammingWeight = c.isHammingWeight ∧
      (c.setWithNoise).isHammingDistance = c.isHammingDistance ∧
      (c.setWithoutNoise).isHammingWeight = c.isHammingWeight ∧
      (c.setWithoutNoise).isHammingDistance = c.isHammingDistance := by
  intro c m
  cases m <;>
    simp [PowerAnalysisConfig.set, PowerAnalysisConfig.setWithNoise,
      PowerAnalysisConfig.setWithoutNoise, PowerAnalysisConfig.isHammingWeight,
      PowerAnalysisConfig.isHammingDistance, PowerAnalysisConfig.getPowerModel]

/-! ## Fidelity of the engine model

The modelled engine reproduces, exactly, the golden sample streams of
`TEST(PowerTrace, base)` and the instruction-inputs cases of
`TEST(PowerTrace, HammingWeightWithConfig)` and
`TEST(PowerTrace, HammingDistanceWithConfig)` (`65.6 = 328/5`). -/
set_option maxHeartbeats 2000000 in
theorem engine_matches_base_test :
    analyzeSamples PowerTraceConfig.init hwZeroPac v7mRegIndex Oracle.default insts =
      [[⟨17, 8, 4, 4, 0, 0, 0, some inst0⟩],
       [⟨22, 9, 5, 2, 2, 0, 0, some inst1⟩],
       [⟨34, 6, 12, 0, 0, 10, 2, some inst2⟩, ⟨28, 6, 12, 0, 0, 5, 2, none⟩],
       [⟨40, 6, 14, 2, 0, 10, 2, some inst3⟩,
        ⟨328 / 5, 6, 14, 9, 0, 8, 9, none⟩]] := by
  have e1 : hammingWeight 0x089bc = 8 := by decide
  have e2 : hammingWeight 0x089be = 9 := by decide
  have e3 : hammingWeight 0x08326 = 6 := by decide
  have e4 : hammingWeight 0x0832a = 6 := by decide
  have e5 : hammingWeight 0x02105 = 4 := by decide
  have e6 : hammingWeight 0x0460a = 5 := by decide
  have e7 : hammingWeight 0xe9425504 = 12 := by decide
  have e8 : hammingWeight 0xe9d63401 = 14 := by decide
  have e9 : hammingWeight 5 = 2 := by decide
  have e10 : hammingWeight 0x21000000 = 2 := by decide
  have e11 : hammingWeight 3 = 2 := by decide
  have e12 : hammingWeight 0x21f64 = 9 := by decide
  have e13 : hammingWeight 0x21afc = 10 := by decide
  have e14 : hammingWeight 0x21b00 = 5 := by decide
  have e15 : hammingWeight 0x21f5c = 10 := by decide
  have e16 : hammingWeight 0x21f60 = 8 := by decide
  have s1 : isStatusReg "r1" = false := by decide
  have s2 : isStatusReg "r2" = false := by decide
  have s3 : isStatusReg "r3" = false := by decide
  have s4 : isStatusReg "r4" = false := by decide
  have s5 : isStatusReg "cpsr" = true := by decide
  norm_num [analyzeSamples, analyzeGo, instructionSamples, samplesGo,
    computeSample, pcContribution, opcodeContribution, oregContribution,
    oregValue, iregContribution, addrContribution, dataContribution,
    regAccessesFor, regWeight, MemHistory.update, MemHistory.empty,
    Oracle.default, insts, inst0, inst1, inst2, inst3, hwZeroPac,
    PowerTraceConfig.init, v7mRegIndex, e1, e2, e3, e4, e5, e6, e7, e8, e9,
    e10, e11, e12, e13, e14, e15, e16, s1, s2, s3, s4, s5]

set_option maxHeartbeats 1000000 in
/-- The engine model reproduces the weight-model instruction-inputs golden
values: only `MOV r2,r1`, whose READ of `r1 = 5` has Hamming weight 2,
contributes. -/
theorem engine_matches_hw_inputs_test :
    analyzeSamples (cfgOnly .WITH_INSTRUCTIONS_INPUTS) hwZeroPac v7mRegIndex
        Oracle.default insts =
      [[⟨0, 0, 0, 0, 0, 0, 0, some inst0⟩],
       [⟨4, 0, 0, 0, 2, 0, 0, some inst1⟩],
       [⟨0, 0, 0, 0, 0, 0, 0, some inst2⟩, ⟨0, 0, 0, 0, 0, 0, 0, none⟩],
       [⟨0, 0, 0, 0, 0, 0, 0, some inst3⟩, ⟨0, 0, 0, 0, 0, 0, 0, none⟩]] := by
  have e9 : hammingWeight 5 = 2 := by decide
  norm_num [analyzeSamples, analyzeGo, instructionSamples, samplesGo,
    computeSample, pcContribution, opcodeContribution, oregContribution,
    oregValue, iregContribution, addrContribution, dataContribution,
    regAccessesFor, regWeight, MemHistory.update, MemHistory.empty,
    Oracle.default, insts, inst0, inst1, inst2, inst3, hwZeroPac, cfgOnly,
    PowerTraceConfig.init, PowerTraceConfig.clear, PowerTraceConfig.set,
    v7mRegIndex, e9]

set_option maxHeartbeats 1000000 in
/-- The engine model reproduces the distance-model instruction-inputs golden
values of the unit test: every sample is all-zero ("Instructions' inputs are
ignored in the Hamming distance power model"). -/
theorem engine_matches_hd_inputs_test :
    analyzeSamples (cfgOnly .WITH_INSTRUCTIONS_INPUTS) hdZeroPac v7mRegIndex
        Oracle.default insts =
      [[⟨0, 0, 0, 0, 0, 0, 0, some inst0⟩],
       [⟨0, 0, 0, 0, 0, 0, 0, some inst1⟩],
       [⟨0, 0, 0, 0, 0, 0, 0, some inst2⟩, ⟨0, 0, 0, 0, 0, 0, 0, none⟩],
       [⟨0, 0, 0, 0, 0, 0, 0, some inst3⟩, ⟨0, 0, 0, 0, 0, 0, 0, none⟩]] := by
  norm_num [analyzeSamples, analyzeGo, instructionSamples, samplesGo,
    computeSample, pcContribution, opcodeContribution, oregContribution,
    oregValue, iregContribution, addrContribution, dataContribution,
    regAccessesFor, regWeight, MemHistory.update, MemHistory.empty,
    Oracle.default, insts, inst0, inst1, inst2, inst3, hdZeroPac, cfgOnly,
    PowerTraceConfig.init, PowerTraceConfig.clear, PowerTraceConfig.set,
    v7mRegIndex]

/-! ## Multi-cycle expansion (C1) -/

/-- Every sample emitted by `samplesGo` at position `m` carries the
instruction back-reference exactly when it is the instruction's sample 0, and
its PC/opcode fields are the per-instruction contributions, independent of
the sample index, consumed access and history. -/
theorem samplesGo_get (ptc : PowerTraceConfig) (pac : PowerAnalysisConfig)
    (regIndex : String → Nat) (oracle : Oracle) (prev : Option RefInstruction)
    (I : RefInstruction) (k : Nat) (accs : List MemAccess) :
    ∀ (j m : Nat) (h : MemHistory) (s : PowerSample),
      (samplesGo ptc pac regIndex oracle prev I k j accs h).1.get? m = some s →
        s.inst = (if j + m = 0 then some I else none) ∧
        s.pc = pcContribution ptc pac prev I ∧
        s.instr = opcodeContribution ptc pac prev I := by
  induction accs with
  | nil => intro j m h s hs; simp [samplesGo] at hs
  | cons a rest ih =>
    intro j m h s hs
    cases m with
    | zero =>
      simp [samplesGo] at hs
      subst hs
      refine ⟨?_, rfl, rfl⟩
      simp [computeSample]
    | succ m' =>
      simp only [samplesGo, List.get?_cons_succ] at hs
      obtain ⟨h1, h2, h3⟩ := ih (j + 1) m' (h.update a) s hs
      refine ⟨?_, h2, h3⟩
      rw [h1]
      have hne : j + 1 + m' ≠ 0 := by omega
      have hne' : j + (m' + 1) ≠ 0 := by omega
      rw [if_neg hne, if_neg hne']

/-- `samplesGo` emits one sample per memory access. -/
theorem samplesGo_length (ptc : PowerTraceConfig) (pac : PowerAnalysisConfig)
    (regIndex : String → Nat) (oracle : Oracle) (prev : Option RefInstruction)
    (I : RefInstruction) (k : Nat) (accs : List MemAccess) :
    ∀ (j : Nat) (h : MemHistory),
      (samplesGo ptc pac regIndex oracle prev I k j accs h).1.length = accs.length := by
  induction accs with
  | nil => intro j h; rfl
  | cons a rest ih => intro j h; simp [samplesGo, ih]

/-- An instruction with at least one memory access contributes exactly one
sample per access. -/
theorem instructionSamples_length (ptc : PowerTraceConfig)
    (pac : PowerAnalysisConfig) (regIndex : String → Nat) (oracle : Oracle)
    (prev : Option RefInstruction) (hist : MemHistory) (I : RefInstruction)
    (hne : I.memAccess ≠ []) :
    (instructionSamples ptc pac regIndex oracle prev hist I).1.length =
      I.memAccess.length := by
  cases hacc : I.memAccess with
  | nil => exact absurd hacc hne
  | cons a rest =>
    simp [instructionSamples, hacc, samplesGo_length]

/-- Position `m` of an instruction's sample group: back-reference only at
`m = 0`, constant PC/opcode fields. -/
theorem instructionSamples_get (ptc : PowerTraceConfig)
    (pac : PowerAnalysisConfig) (regIndex : String → Nat) (oracle : Oracle)
    (prev : Option RefInstruction) (hist : MemHistory) (I : RefInstruction)
    (hne : I.memAccess ≠ []) (m : Nat) (s : PowerSample)
    (hs : (instructionSamples ptc pac regIndex oracle prev hist I).1.get? m = some s) :
    s.inst = (if m = 0 then some I else none) ∧
      s.pc = pcContribution ptc pac prev I ∧
      s.instr = opcodeContribution ptc pac prev I := by
  cases hacc : I.memAccess with
  | nil => exact absurd hacc hne
  | cons a rest =>
    rw [instructionSamples, hacc] at hs
    simp only [List.isEmpty_cons, ite_false, Bool.false_eq_true] at hs
    have := samplesGo_get ptc pac regIndex oracle prev I (a :: rest).length
      (a :: rest) 0 m hist s hs
    simpa using this

/-- Group `i` of the engine's output is the sample group of instruction `i`,
for some threaded previous-instruction and memory-history state. -/
theorem analyzeGo_get (ptc : PowerTraceConfig) (pac : PowerAnalysisConfig)
    (regIndex : String → Nat) (oracle : Oracle) (trace : List RefInstruction) :
    ∀ (prev : Option RefInstruction) (hist : MemHistory) (i : Nat)
      (I : RefInstruction), trace.get? i = some I →
      ∃ p hh, (analyzeGo ptc pac regIndex oracle prev hist trace).get? i =
        some (instructionSamples ptc pac regIndex oracle p hh I).1 := by
  induction trace with
  | nil => intro prev hist i I hI; simp at hI
  | cons J rest ih =>
    intro prev hist i I hI
    cases i with
    | zero =>
      simp only [List.get?_cons_zero, Option.some.injEq] at hI
      subst hI
      exact ⟨prev, hist, rfl⟩
    | succ i' =>
      simp only [List.get?_cons_succ] at hI
      simp only [analyzeGo, List.get?_cons_succ]
      exact ih (some J) (instructionSamples ptc pac regIndex oracle prev hist J).2
        i' I hI

/-- C1: for every instruction performing `k > 1` memory accesses configured
to leak, `analyze()` emits exactly `k` leakage samples to each active
`PowerAnalysisConfig`'s power sink; sample 0 carries a non-null
back-reference to the instruction, and samples `1..k-1` carry a null
back-reference while sharing sample 0's PC and opcode contributions. -/
theorem multicycle_expansion (ptc : PowerTraceConfig)
    (configs : List PowerAnalysisConfig) (regIndex : String → Nat)
    (oracle : Oracle) (trace : List RefInstruction) (rbE maE idE : Bool)
    (c : Nat) (pac : PowerAnalysisConfig) (i : Nat) (I : RefInstruction)
    (hc : configs.get? c = some pac)
    (hI : trace.get? i = some I)
    (hk : 1 < I.memAccess.length)
    (hleak : ptc.withMemAddress = true ∨ ptc.withMemData = true) :
    ∃ gs g s0,
      (analyze ptc configs regIndex oracle trace rbE maE idE).1.get? c = some gs ∧
      gs.get? i = some g ∧
      g.length = I.memAccess.length ∧
      g.get? 0 = some s0 ∧ s0.inst = some I ∧
      ∀ j s, 0 < j → g.get? j = some s →
        s.inst = none ∧ s.pc = s0.pc ∧ s.instr = s0.instr := by
  have hne : I.memAccess ≠ [] := by
    intro h; rw [h] at hk; simp at hk
  have hgs : (analyze ptc configs regIndex oracle trace rbE maE idE).1.get? c =
      some (analyzeSamples ptc pac regIndex oracle trace) := by
    show (configs.map fun q => analyzeSamples ptc q regIndex oracle trace).get? c = _
    rw [List.get?_eq_getElem?, List.getElem?_map, ← List.get?_eq_getElem?, hc,
      Option.map_some']
  obtain ⟨p, hh, hg⟩ := analyzeGo_get ptc pac regIndex oracle trace none
    MemHistory.empty i I hI
  set g := (instructionSamples ptc pac regIndex oracle p hh I).1 with hgdef
  have hlen : g.length = I.memAccess.length :=
    instructionSamples_length ptc pac regIndex oracle p hh I hne
  have hpos : 0 < g.length := by omega
  cases hg0 : g.get? 0 with
  | none =>
    rw [List.get?_eq_none] at hg0
    omega
  | some s0 =>
    obtain ⟨hinst0, hpc0, hop0⟩ :=
      instructionSamples_get ptc pac regIndex oracle p hh I hne 0 s0 hg0
    refine ⟨analyzeSamples ptc pac regIndex oracle trace, g, s0, hgs, hg, hlen,
      hg0, by simpa using hinst0, ?_⟩
    intro j s hj hjs
    obtain ⟨hinstj, hpcj, hopj⟩ :=
      instructionSamples_get ptc pac regIndex oracle p hh I hne j s hjs
    have hjne : j ≠ 0 := by omega
    refine ⟨by simpa [hjne] using hinstj, ?_, ?_⟩
    · rw [hpcj, hpc0]
    · rw [hopj, hop0]

/-- Witness for C1: in the unit tests' trace, `STRD r5,r1,[r2,#-0x10]`
(two memory writes) expands into two samples with the stated shape. -/
theorem multicycle_expansion_witness :
    (([hwZeroPac] : List PowerAnalysisConfig).get? 0 = some hwZeroPac ∧
     insts.get? 2 = some inst2 ∧ 1 < inst2.memAccess.length ∧
     PowerTraceConfig.init.withMemAddress = true) ∧
    ∃ gs g s0,
      (analyze PowerTraceConfig.init [hwZeroPac] v7mRegIndex Oracle.default
          insts true true true).1.get? 0 = some gs ∧
      gs.get? 2 = some g ∧
      g.length = inst2.memAccess.length ∧
      g.get? 0 = some s0 ∧ s0.inst = some inst2 ∧
      ∀ j s, 0 < j → g.get? j = some s →
        s.inst = none ∧ s.pc = s0.pc ∧ s.instr = s0.instr :=
  ⟨⟨rfl, rfl, by decide, rfl⟩,
   multicycle_expansion PowerTraceConfig.init [hwZeroPac] v7mRegIndex
     Oracle.default insts true true true 0 hwZeroPac 2 inst2 rfl rfl
     (by decide) (Or.inl rfl)⟩

/-! ## Instruction inputs in the distance model (C2) -/

/-- Counterexample to C2: analyzing `MOV r2,r1` (a READ of `r1 = 5`) under
the Hamming-distance model with the instruction-inputs facet enabled and the
all-zero `Oracle`, the emitted inputs term is 0, not the claimed
`HD(5, 0) = 2` — the unit test pins this: "Instructions' inputs are ignored
in the Hamming distance power model". -/
theorem hd_inputs_term_counterexample :
    ¬ (∀ g ∈ analyzeSamples (cfgOnly .WITH_INSTRUCTIONS_INPUTS) hdZeroPac
          v7mRegIndex Oracle.default [inst1],
        ∀ s ∈ g, s.ireg = claimedInputsTermHD Oracle.default v7mRegIndex inst1) := by
  intro hcl
  have hform : analyzeSamples (cfgOnly .WITH_INSTRUCTIONS_INPUTS) hdZeroPac
      v7mRegIndex Oracle.default [inst1] =
      [[computeSample (cfgOnly .WITH_INSTRUCTIONS_INPUTS) hdZeroPac v7mRegIndex
          Oracle.default none MemHistory.empty inst1 0 none inst1.regAccess]] := rfl
  rw [hform] at hcl
  have h := hcl _ (List.mem_singleton.mpr rfl) _ (List.mem_singleton.mpr rfl)
  have hL : (computeSample (cfgOnly .WITH_INSTRUCTIONS_INPUTS) hdZeroPac
      v7mRegIndex Oracle.default none MemHistory.empty inst1 0 none
      inst1.regAccess).ireg = 0 := rfl
  have hval : hammingDistance 5
      ((Oracle.default.getRegBankState (inst1.time - 1)).getD
        (v7mRegIndex "r1") 0) = 2 := by decide
  have hR : claimedInputsTermHD Oracle.default v7mRegIndex inst1 =
      (hammingDistance 5
        ((Oracle.default.getRegBankState (inst1.time - 1)).getD
          (v7mRegIndex "r1") 0) : ℚ) + 0 := rfl
  rw [hval] at hR
  rw [hL, hR] at h
  norm_num at h

/-- In the distance model no sample carries an inputs term (single
sample). -/
theorem computeSample_ireg_eq_zero (ptc : PowerTraceConfig)
    (pac : PowerAnalysisConfig) (regIndex : String → Nat) (oracle : Oracle)
    (prev : Option RefInstruction) (hist : MemHistory) (I : RefInstruction)
    (j : Nat) (acc : Option MemAccess) (ras : List RegAccess)
    (hm : pac.powerModel = PowerModel.HAMMING_DISTANCE) :
    (computeSample ptc pac regIndex oracle prev hist I j acc ras).ireg = 0 := by
  simp [computeSample, iregContribution, hm]

/-- In the distance model no sample of `samplesGo` carries an inputs term. -/
theorem samplesGo_ireg_eq_zero (ptc : PowerTraceConfig)
    (pac : PowerAnalysisConfig) (regIndex : String → Nat) (oracle : Oracle)
    (prev : Option RefInstruction) (I : RefInstruction) (k : Nat)
    (hm : pac.powerModel = PowerModel.HAMMING_DISTANCE) :
    ∀ (accs : List MemAccess) (j : Nat) (h : MemHistory),
      ∀ s ∈ (samplesGo ptc pac regIndex oracle prev I k j accs h).1,
        s.ireg = 0 := by
  intro accs
  induction accs with
  | nil => intro j h s hs; simp [samplesGo] at hs
  | cons a rest ih =>
    intro j h s hs
    simp only [samplesGo, List.mem_cons] at hs
    rcases hs with rfl | hs
    · exact computeSample_ireg_eq_zero ptc pac regIndex oracle prev h I j
        (some a) (regAccessesFor I k j) hm
    · exact ih (j + 1) (h.update a) s hs

/-- In the distance model no sample of an instruction carries an inputs
term. -/
theorem instructionSamples_ireg_eq_zero (ptc : PowerTraceConfig)
    (pac : PowerAnalysisConfig) (regIndex : String → Nat) (oracle : Oracle)
    (prev : Option RefInstruction) (hist : MemHistory) (I : RefInstruction)
    (hm : pac.powerModel = PowerModel.HAMMING_DISTANCE) :
    ∀ s ∈ (instructionSamples ptc pac regIndex oracle prev hist I).1,
      s.ireg = 0 := by
  intro s hs
  rw [instructionSamples] at hs
  by_cases hacc : I.memAccess.isEmpty
  · rw [if_pos hacc, List.mem_singleton] at hs
    subst hs
    exact computeSample_ireg_eq_zero ptc pac regIndex oracle prev hist I 0
      none I.regAccess hm
  · rw [if_neg hacc] at hs
    exact samplesGo_ireg_eq_zero ptc pac regIndex oracle prev I
      I.memAccess.length hm I.memAccess 0 hist s hs

/-- C2 (amended): in the Hamming-distance model, the inputs term of every
emitted leakage sample is 0 — instruction inputs are ignored by the distance
model (the Hamming-weight model sums the Hamming weights of the register READ
accesses instead, see `engine_matches_hw_inputs_test`). -/
theorem hamming_distance_ignores_inputs (ptc : PowerTraceConfig)
    (pac : PowerAnalysisConfig) (regIndex : String → Nat) (oracle : Oracle)
    (trace : List RefInstruction)
    (hm : pac.powerModel = PowerModel.HAMMING_DISTANCE) :
    ∀ g ∈ analyzeSamples ptc pac regIndex oracle trace, ∀ s ∈ g, s.ireg = 0 := by
  rw [analyzeSamples]
  generalize (none : Option RefInstruction) = prev
  generalize MemHistory.empty = hist
  induction trace generalizing prev hist with
  | nil => intro g hg; simp [analyzeGo] at hg
  | cons I rest ih =>
    intro g hg
    simp only [analyzeGo, List.mem_cons] at hg
    rcases hg with rfl | hg
    · exact instructionSamples_ireg_eq_zero ptc pac regIndex oracle prev hist I hm
    · exact ih (some I) (instructionSamples ptc pac regIndex oracle prev hist I).2 g hg

/-- Witness for the amended C2 on the unit tests' trace. -/
theorem hamming_distance_ignores_inputs_witness :
    hdZeroPac.powerModel = PowerModel.HAMMING_DISTANCE ∧
      ∀ g ∈ analyzeSamples (cfgOnly .WITH_INSTRUCTIONS_INPUTS) hdZeroPac
          v7mRegIndex Oracle.default insts, ∀ s ∈ g, s.ireg = 0 :=
  ⟨rfl,
   hamming_distance_ignores_inputs (cfgOnly .WITH_INSTRUCTIONS_INPUTS)
     hdZeroPac v7mRegIndex Oracle.default insts rfl⟩

/-! ## Dumper gating (C9) -/

/-- C9: a dumper whose `enabled()` is false receives no `dump` call during
the whole `analyze()` pass — its observable dump state stays empty — for each
of the register-bank, memory-access and instruction dumpers independently. -/
theorem dumper_gating (ptc : PowerTraceConfig)
    (configs : List PowerAnalysisConfig) (regIndex : String → Nat)
    (oracle : Oracle) (trace : List RefInstruction) (rbE maE idE : Bool) :
    (rbE = false →
      (analyze ptc configs regIndex oracle trace rbE maE idE).2.regbankDumps = []) ∧
    (maE = false →
      (analyze ptc configs regIndex oracle trace rbE maE idE).2.memDumps = []) ∧
    (idE = false →
      (analyze ptc configs regIndex oracle trace rbE maE idE).2.instrDumps = []) := by
  refine ⟨fun h => ?_, fun h => ?_, fun h => ?_⟩ <;> subst h <;> simp [analyze]

/-- Witness for C9: with all three dumpers disabled on the unit tests' trace,
no dump state is produced. -/
theorem dumper_gating_witness :
    (false = false) ∧
      (analyze PowerTraceConfig.init [hwZeroPac] v7mRegIndex Oracle.default
          insts false false false).2.regbankDumps = [] ∧
      (analyze PowerTraceConfig.init [hwZeroPac] v7mRegIndex Oracle.default
          insts false false false).2.memDumps = [] ∧
      (analyze PowerTraceConfig.init [hwZeroPac] v7mRegIndex Oracle.default
          insts false false false).2.instrDumps = [] :=
  ⟨rfl,
   (dumper_gating PowerTraceConfig.init [hwZeroPac] v7mRegIndex Oracle.default
     insts false false false).1 rfl,
   (dumper_gating PowerTraceConfig.init [hwZeroPac] v7mRegIndex Oracle.default
     insts false false false).2.1 rfl,
   (dumper_gating PowerTraceConfig.init [hwZeroPac] v7mRegIndex Oracle.default
     insts false false false).2.2 rfl⟩

/-! ## PowerTrace bookkeeping across add and move (C8) -/

/-- `addAll` appends, preserving the configuration and descriptor. -/
theorem addAll_spec (l : List RefInstruction) :
    ∀ pt : PowerTrace, (pt.addAll l).instructions = pt.instructions ++ l ∧
      (pt.addAll l).config = pt.config ∧
      (pt.addAll l).archDescription = pt.archDescription := by
  induction l with
  | nil => intro pt; simp [PowerTrace.addAll]
  | cons a rest ih =>
    intro pt
    have h := ih (pt.add a)
    simp only [PowerTrace.addAll, List.foldl_cons] at h ⊢
    simpa [PowerTrace.add] using h

/-- C8: after N `add` calls, `size() == N` and indexed access returns each
added instruction unchanged, in insertion order; this is preserved across a
move of the `PowerTrace`, and further `add`/`analyze` after the move still
see all previously added instructions. -/
theorem powerTrace_trace_bookkeeping (ptc : PowerTraceConfig) (arch : String)
    (l extra : List RefInstruction) :
    ((PowerTrace.mkTrace ptc arch).addAll l).size = l.length ∧
    (∀ i, ((PowerTrace.mkTrace ptc arch).addAll l).getInstr i = l.get? i) ∧
    ((PowerTrace.mkTrace ptc arch).addAll l).moveConstruct.size = l.length ∧
    (∀ i, ((PowerTrace.mkTrace ptc arch).addAll l).moveConstruct.getInstr i = l.get? i) ∧
    (((PowerTrace.mkTrace ptc arch).addAll l).moveConstruct.addAll extra).instructions
      = l ++ extra ∧
    (∀ (configs : List PowerAnalysisConfig) (regIndex : String → Nat)
        (oracle : Oracle) (rbE maE idE : Bool),
      (((PowerTrace.mkTrace ptc arch).addAll l).moveConstruct.addAll
          extra).analyzeAll configs regIndex oracle rbE maE idE =
        analyze ptc configs regIndex oracle (l ++ extra) rbE maE idE) := by
  obtain ⟨h1, h2, h3⟩ := addAll_spec l (PowerTrace.mkTrace ptc arch)
  have hl : ((PowerTrace.mkTrace ptc arch).addAll l).instructions = l := by
    simpa [PowerTrace.mkTrace] using h1
  obtain ⟨h1e, h2e, h3e⟩ :=
    addAll_spec extra (((PowerTrace.mkTrace ptc arch).addAll l).moveConstruct)
  have hle : (((PowerTrace.mkTrace ptc arch).addAll l).moveConstruct.addAll
      extra).instructions = l ++ extra := by
    rw [h1e]
    simp [PowerTrace.moveConstruct, hl]
  refine ⟨?_, ?_, ?_, ?_, hle, ?_⟩
  · simp [PowerTrace.size, hl]
  · intro i; simp [PowerTrace.getInstr, hl]
  · simp [PowerTrace.size, PowerTrace.moveConstruct, hl]
  · intro i; simp [PowerTrace.getInstr, PowerTrace.moveConstruct, hl]
  · intro configs regIndex oracle rbE maE idE
    rw [PowerTrace.analyzeAll, hle, h2e]
    show analyze ((PowerTrace.mkTrace ptc arch).addAll l).config configs
      regIndex oracle (l ++ extra) rbE maE idE = _
    rw [h2]
    rfl

/-! ## Agreement of the two t-test computations (C4) -/

/-- Invariant of the streaming pass: after consuming a sample it holds its
length, its two-pass mean, and its two-pass sum of squared deviations (in the
`Q - S²/n` form; every division is exact rational division, with `x / 0 = 0`
making the empty case uniform). -/
theorem welfordRun_spec (xs : List ℚ) :
    (welfordRun xs).n = xs.length ∧
    (welfordRun xs).mean = xs.sum / xs.length ∧
    (welfordRun xs).m2 =
      (xs.map fun x => x ^ 2).sum - xs.sum ^ 2 / xs.length := by
  induction xs using List.reverseRecOn with
  | nil => refine ⟨rfl, by simp [welfordRun], by simp [welfordRun]⟩
  | append_singleton l a ih =>
    obtain ⟨hn, hm, h2⟩ := ih
    have hrun : welfordRun (l ++ [a]) = (welfordRun l).step a := by
      simp [welfordRun, List.foldl_append]
    rcases Nat.eq_zero_or_pos l.length with hz | hpos
    · have hl : l = [] := List.length_eq_zero.mp hz
      subst hl
      refine ⟨rfl, ?_, ?_⟩
      · show (WelfordState.step ⟨0, 0, 0⟩ a).mean = _
        simp [WelfordState.step]
      · show (WelfordState.step ⟨0, 0, 0⟩ a).m2 = _
        simp [WelfordState.step]
    · have hlQ : (l.length : ℚ) ≠ 0 := by positivity
      have hl1Q : ((l.length : ℚ) + 1) ≠ 0 := by positivity
      refine ⟨by simp [hrun, WelfordState.step, hn], ?_, ?_⟩
      · simp only [hrun, WelfordState.step, hn, hm, List.sum_append,
          List.length_append, List.sum_cons, List.sum_nil, List.length_cons,
          List.length_nil]
        push_cast
        field_simp
        ring
      · simp only [hrun, WelfordState.step, hn, hm, h2, List.sum_append,
          List.length_append, List.map_append, List.map_cons, List.map_nil,
          List.sum_cons, List.sum_nil, List.length_cons, List.length_nil]
        push_cast
        field_simp
        ring

/-- Expanding a sum of squared deviations from an arbitrary center. -/
theorem sum_sq_dev (xs : List ℚ) (c : ℚ) :
    (xs.map fun x => (x - c) ^ 2).sum =
      (xs.map fun x => x ^ 2).sum - 2 * c * xs.sum + xs.length * c ^ 2 := by
  induction xs with
  | nil => simp
  | cons a l ih =>
    simp only [List.map_cons, List.sum_cons, List.length_cons, ih]
    push_cast
    ring

/-- The two-pass sum of squared deviations from the mean, in the streaming
pass's `Q - S²/n` form. -/
theorem sum_sq_dev_mean (xs : List ℚ) :
    (xs.map fun x => (x - listMean xs) ^ 2).sum =
      (xs.map fun x => x ^ 2).sum - xs.sum ^ 2 / xs.length := by
  rcases Nat.eq_zero_or_pos xs.length with hz | hpos
  · have hx : xs = [] := List.length_eq_zero.mp hz
    subst hx; simp
  · have hlQ : (xs.length : ℚ) ≠ 0 := by positivity
    rw [sum_sq_dev, listMean]
    field_simp
    ring

/-- The streaming mean equals the two-pass mean. -/
theorem perfectMean_eq (xs : List ℚ) : perfectMean xs = listMean xs := by
  rw [perfectMean, (welfordRun_spec xs).2.1, listMean]

/-- The streaming sample variance equals the two-pass sample variance. -/
theorem perfectVar_eq (xs : List ℚ) : perfectVar xs = listSampleVar xs := by
  rw [perfectVar, (welfordRun_spec xs).2.2, (welfordRun_spec xs).1,
    listSampleVar, sum_sq_dev_mean]

/-- The per-column statistic of the streaming computation equals the
two-pass Welch t-statistic. -/
theorem perfectWelchT_eq (sqrtFn : ℚ → ℚ) (xs0 xs1 : List ℚ) :
    perfectWelchT sqrtFn xs0 xs1 = welchT sqrtFn xs0 xs1 := by
  rw [perfectWelchT, welchT, perfectMean_eq, perfectMean_eq, perfectVar_eq,
    perfectVar_eq, (welfordRun_spec xs0).1, (welfordRun_spec xs1).1]

/-- C4: on every trace matrix, classification (or pair of group matrices)
and sample range `[b, e)`, `perfect_t_test` and `t_test` produce the same
per-column t-statistics (exact agreement of the idealized computations, hence
agreement within any floating tolerance). -/
theorem t_test_perfect_agreement :
    ∀ (sqrtFn : ℚ → ℚ) (b e : Nat) (g0 g1 m : List (List ℚ))
      (cls : List Classification) (verbose : Bool),
      perfect_t_test sqrtFn b e g0 g1 verbose = t_test sqrtFn b e g0 g1 ∧
      perfect_t_testClassified sqrtFn b e m cls verbose =
        t_testClassified sqrtFn b e m cls := by
  intro sqrtFn b e g0 g1 m cls verbose
  constructor
  · simp [perfect_t_test, t_test, perfectWelchT_eq]
  · simp [perfect_t_testClassified, t_testClassified, perfect_t_test, t_test,
      perfectWelchT_eq]

end PAF
